import Mathlib

/-!
Verification of the notification aggregation engine of the `inat-extension`
repository (`src/lib/notifications.js`, `src/lib/notifications-api.js`, and the
`NotificationController` in `src/README.md`).

The JavaScript code is shallowly embedded: JS objects become Lean structures,
nullable / missing fields become `Option`, JS string-or-number ids become
`String`, timestamps become milliseconds-since-epoch as `Int` (a JS `Date`
wraps such a number), and JS truthiness on strings ("" falsy) / numbers
(0 falsy) is modelled explicitly.  Host primitives that are not part of the
repository (the `new Date(string)` absolute-date parser, the current clock)
are passed in as parameters.
-/

namespace INat

/-! ## JS truthiness helpers (`a || b`, `a || null`) -/

/-- JS `a || dflt` where `a` is a nullable string (`""` is falsy). -/
def jsOrStr : Option String → String → String
  | some s, d => if s = "" then d else s
  | none, d => d

/-- JS `a || b` on two nullable strings. -/
def jsOrOpt : Option String → Option String → Option String
  | some s, b => if s = "" then b else some s
  | none, b => b

/-- JS `a || null` on a nullable string. -/
def jsOrNullStr : Option String → Option String
  | some s => if s = "" then none else some s
  | none => none

/-- JS `a || null` on a nullable number (`0` is falsy). -/
def jsOrNullInt : Option Int → Option Int
  | some n => if n = 0 then none else some n
  | none => none

/-- JS `a || 0` on a nullable number. -/
def jsOrZero : Option Int → Int
  | some n => n
  | none => 0

/-! ## Substring search (JS `String.prototype.includes`) -/

/-- Does `pat` occur as a contiguous substring of `l`?  (JS `includes`.) -/
def subOccursL (pat : List Char) : List Char → Bool
  | [] => pat.isEmpty
  | c :: rest => pat.isPrefixOf (c :: rest) || subOccursL pat rest

/-- JS `s.includes(pat)`. -/
def strIncludes (s pat : String) : Bool :=
  subOccursL pat.toList s.toList

/-- JS `s.startsWith(pat)`. -/
def strStartsWith (s pat : String) : Bool :=
  pat.toList.isPrefixOf s.toList

/-! ## `parseDate` (src/lib/notifications.js lines 74-101)

The regex `/(\d+)\s*(second|minute|hour|day|week|month|year)s?\s*ago/i` is
embedded as a leftmost-match scanner over the character list; `new Date(value)`
(the host ISO/absolute parser) is the `tryAbsoluteDate` parameter and the
current clock is the `nowMs` parameter. -/

/-- Time units accepted by the relative-date regex alternation. -/
inductive TimeUnit
  | second | minute | hour | day | week | month | year
deriving Repr, DecidableEq

/-- The `multipliers` table of `parseDate`: milliseconds per unit. -/
def multipliers : TimeUnit → Int
  | .second => 1000
  | .minute => 60 * 1000
  | .hour => 60 * 60 * 1000
  | .day => 24 * 60 * 60 * 1000
  | .week => 7 * 24 * 60 * 60 * 1000
  | .month => 30 * 24 * 60 * 60 * 1000
  | .year => 365 * 24 * 60 * 60 * 1000

/-- Characters of the regex class `\s` (ASCII part plus NBSP). -/
def isJsSpace (c : Char) : Bool :=
  c = ' ' || c = '\t' || c = '\n' || c = '\r' || c = '\x0b' || c = '\x0c' ||
    c = Char.ofNat 160

/-- Case-insensitively consume the (lowercase) word `pat` from the front of
`cs`, returning the rest on success. -/
def dropWordCI : List Char → List Char → Option (List Char)
  | [], cs => some cs
  | _ :: _, [] => none
  | p :: ps, c :: cs => if c.toLower = p then dropWordCI ps cs else none

/-- The unit alternation of the regex, in source order. -/
def unitWords : List (List Char × TimeUnit) :=
  [("second".toList, .second), ("minute".toList, .minute), ("hour".toList, .hour),
   ("day".toList, .day), ("week".toList, .week), ("month".toList, .month),
   ("year".toList, .year)]

/-- Try each unit word in order at the front of `cs`. -/
def matchUnitGo : List (List Char × TimeUnit) → List Char → Option (TimeUnit × List Char)
  | [], _ => none
  | (w, u) :: ws, cs =>
    match dropWordCI w cs with
    | some rest => some (u, rest)
    | none => matchUnitGo ws cs

/-- Match one unit name (case-insensitive) at the front of `cs`. -/
def matchUnit (cs : List Char) : Option (TimeUnit × List Char) :=
  matchUnitGo unitWords cs

/-- `parseInt(ds, 10)` on a digit run. -/
def digitsToNat (ds : List Char) : Nat :=
  ds.foldl (fun n c => n * 10 + (c.toNat - '0'.toNat)) 0

/-- Match `(\d+)\s*(unit)s?\s*ago` (case-insensitive) anchored at the front of
`cs`. -/
def matchRelAt (cs : List Char) : Option (Nat × TimeUnit) :=
  let ds := cs.takeWhile Char.isDigit
  if ds.isEmpty then none
  else
    let afterDigits := (cs.dropWhile Char.isDigit).dropWhile isJsSpace
    match matchUnit afterDigits with
    | none => none
    | some (u, afterUnit) =>
      let afterS := match afterUnit with
        | c :: r => if c.toLower = 's' then r else afterUnit
        | [] => afterUnit
      match dropWordCI "ago".toList (afterS.dropWhile isJsSpace) with
      | some _ => some (digitsToNat ds, u)
      | none => none

/-- Leftmost match of the relative-date regex anywhere in the string. -/
def findRel : List Char → Option (Nat × TimeUnit)
  | [] => none
  | c :: cs =>
    match matchRelAt (c :: cs) with
    | some r => some r
    | none => findRel cs

/-- A JS value passed as `data.createdAt`: null/undefined, a `Date`, or a
string. -/
inductive DateVal
  | dNone
  | dDate (ms : Int)
  | dStr (s : String)
deriving Repr, DecidableEq

/-- `parseDate` (src/lib/notifications.js lines 74-101).  `tryAbsoluteDate`
models `new Date(value)` on a string (`some` when the resulting date is
valid), `nowMs` models `new Date()` at the call. -/
def parseDate (tryAbsoluteDate : String → Option Int) (nowMs : Int) :
    DateVal → Option Int
  | .dNone => none
  | .dDate t => some t
  | .dStr s =>
    if s = "" then none
    else
      match tryAbsoluteDate s with
      | some t => some t
      | none =>
        match findRel s.toList with
        | some (amount, u) => some (nowMs - (amount : Int) * multipliers u)
        | none => none

/-! ## The canonical notification record -/

/-- `user` block of a canonical notification. -/
structure NUser where
  login : String
  name : String
  iconUrl : Option String
deriving Repr, DecidableEq

/-- `taxon` block of a canonical notification. -/
structure NTaxon where
  id : Option Int
  name : Option String
  commonName : Option String
deriving Repr, DecidableEq

/-- `observation` enrichment block of a canonical notification. -/
structure NObservation where
  taxon : Option NTaxon
  thumbnail : Option String
  mediumPhoto : Option String
  observer : Option String
  observedOn : Option String
  placeGuess : Option String
  qualityGrade : Option String
  identificationsCount : Int
deriving Repr, DecidableEq

/-- The canonical notification record (the `@typedef Notification` of
src/lib/notifications.js).  `createdAt` is a nullable millisecond timestamp,
`raw` an opaque tag for the original payload. -/
structure Notification where
  id : Option String
  source : String
  category : String
  viewed : Option Bool
  createdAt : Option Int
  observationId : String
  observationUrl : String
  user : NUser
  body : Option String
  taxon : Option NTaxon
  observation : Option NObservation
  raw : Option String
deriving Repr, DecidableEq

/-! ## `createNotification` (src/lib/notifications.js lines 32-69) -/

/-- `data.user` as passed to `createNotification`. -/
structure NDataUser where
  login : Option String
  name : Option String
  iconUrl : Option String
deriving Repr, DecidableEq

/-- `data.taxon` as passed to `createNotification`. -/
structure NDataTaxon where
  id : Option Int
  name : Option String
  commonName : Option String
deriving Repr, DecidableEq

/-- `data.observation` as passed to `createNotification`. -/
structure NDataObservation where
  taxon : Option NDataTaxon
  thumbnail : Option String
  mediumPhoto : Option String
  observer : Option String
  observedOn : Option String
  placeGuess : Option String
  qualityGrade : Option String
  identificationsCount : Option Int
deriving Repr, DecidableEq

/-- The argument object of `createNotification`. -/
structure NData where
  id : Option String
  source : Option String
  category : Option String
  viewed : Option Bool
  createdAt : DateVal
  observationId : Option String
  observationUrl : Option String
  user : Option NDataUser
  body : Option String
  taxon : Option NDataTaxon
  observation : Option NDataObservation
  raw : Option String
deriving Repr, DecidableEq

/-- `createNotification` (src/lib/notifications.js lines 32-69).  The two
parameters model the host date parser and clock used by `parseDate`. -/
def createNotification (tryAbsoluteDate : String → Option Int) (nowMs : Int)
    (data : NData) : Notification :=
  { id := data.id
    source := jsOrStr data.source "unknown"
    category := jsOrStr data.category "identification"
    viewed := data.viewed
    createdAt :=
      match data.createdAt with
      | .dDate t => some t
      | v => parseDate tryAbsoluteDate nowMs v
    observationId := jsOrStr data.observationId ""
    observationUrl := jsOrStr data.observationUrl ""
    user :=
      { login := jsOrStr (data.user.bind NDataUser.login) "unknown"
        name := jsOrStr (jsOrOpt (data.user.bind NDataUser.name)
          (data.user.bind NDataUser.login)) "Unknown"
        iconUrl := jsOrNullStr (data.user.bind NDataUser.iconUrl) }
    body := jsOrNullStr data.body
    taxon :=
      match data.taxon with
      | some t => some
          { id := jsOrNullInt t.id
            name := jsOrNullStr t.name
            commonName := jsOrNullStr t.commonName }
      | none => none
    observation :=
      match data.observation with
      | some o => some
          { taxon :=
              match o.taxon with
              | some t => some
                  { id := jsOrNullInt t.id
                    name := jsOrNullStr t.name
                    commonName := jsOrNullStr t.commonName }
              | none => none
            thumbnail := jsOrNullStr o.thumbnail
            mediumPhoto := jsOrNullStr o.mediumPhoto
            observer := jsOrNullStr o.observer
            observedOn := jsOrNullStr o.observedOn
            placeGuess := jsOrNullStr o.placeGuess
            qualityGrade := jsOrNullStr o.qualityGrade
            identificationsCount := jsOrZero o.identificationsCount }
      | none => none
    raw := data.raw }

/-! ## `getNotificationKey` (src/lib/notifications.js lines 107-112) -/

/-- Deduplication key: observation, category, user and 10-minute time bucket. -/
def getNotificationKey (notif : Notification) : String :=
  let timeKey : String :=
    match notif.createdAt with
    | some t => toString (Int.fdiv t 600000)
    | none => "unknown"
  let userKey : String :=
    if notif.user.login = "" then "unknown" else notif.user.login
  notif.observationId ++ "-" ++ notif.category ++ "-" ++ userKey ++ "-" ++ timeKey

/-! ## NotificationStore (src/lib/notifications.js lines 119-319)

`this.notifications` is a JS `Map` keyed by dedup key.  A `Map` preserves
insertion order, `set` on an existing key updates the entry in place, and
`set` on a fresh key appends; it is embedded as an association list. -/

/-- The `Map` of a `NotificationStore`, as an insertion-ordered association
list from dedup key to notification. -/
abbrev StoreMap := List (String × Notification)

namespace NotificationStore

/-- The `sourcePriority` table of `add`, including the `|| 0` fallback for
unlisted sources. -/
def sourcePriority (s : String) : Nat :=
  if s = "api_v1" then 3 else if s = "json" then 2 else if s = "html" then 1 else 0

/-- JS `Map.set` on a key that is already present: update in place. -/
def setFirst (k : String) (n : Notification) : StoreMap → StoreMap
  | [] => []
  | (k', m) :: rest =>
    if k' = k then (k, n) :: rest else (k', m) :: setFirst k n rest

/-- One iteration of the loop body of `add` (lines 132-149). -/
def addOne (st : StoreMap) (notif : Notification) : StoreMap :=
  let key := getNotificationKey notif
  match st.lookup key with
  | some existing =>
    if sourcePriority notif.source > sourcePriority existing.source then
      setFirst key notif st
    else st
  | none => st ++ [(key, notif)]

/-- `add(notifications)` (lines 129-152): deduplicating merge by key and
source priority. -/
def add (st : StoreMap) (notifications : List Notification) : StoreMap :=
  notifications.foldl addOne st

/-- The sort comparator of `getAll` (lines 166-171), returning the sign
information of the JS comparator as an `Int`. -/
def jsCmpNotif (a b : Notification) : Int :=
  match a.createdAt, b.createdAt with
  | none, none => 0
  | none, some _ => 1
  | some _, none => -1
  | some x, some y => y - x

/-- `a` may be placed before `b` by the comparator (comparator value ≤ 0). -/
def sortLe (a b : Notification) : Prop := jsCmpNotif a b ≤ 0

instance : DecidableRel sortLe := fun a b =>
  inferInstanceAs (Decidable (jsCmpNotif a b ≤ 0))

/-- `getAll()` (lines 164-172): array of values, stably sorted newest-first
with null timestamps last.  JS `Array.prototype.sort` is a stable sort for a
consistent comparator; it is embedded as insertion sort on the non-strict
relation `sortLe`, which yields exactly the stable sort. -/
def getAll (st : StoreMap) : List Notification :=
  (st.map Prod.snd).insertionSort sortLe

/-- `resolveCommentIds` on one stored notification (loop body, lines
274-284).  `mapping` is the commentId → observationId object; a mapped value
must be truthy (a nonempty string) to be applied. -/
def resolveOne (mapping : String → Option String) (notif : Notification) :
    Notification :=
  if strStartsWith notif.observationId "pending_comment_" then
    let commentId := notif.observationId.drop 16
    match mapping commentId with
    | some obsId =>
      if obsId = "" then notif
      else
        { notif with
          observationId := obsId
          observationUrl := "https://www.inaturalist.org/observations/" ++ obsId
            ++ "#activity_comment_" ++ commentId }
    | none => notif
  else notif

/-- `resolveCommentIds(mapping)` (lines 273-286): in-place update of every
stored record; keys are untouched. -/
def resolveCommentIds (st : StoreMap) (mapping : String → Option String) :
    StoreMap :=
  st.map (fun p => (p.1, resolveOne mapping p.2))

/-- Leftmost match of `/observations\/(\d+)/`: the first occurrence of
`observations/` that is directly followed by at least one digit, returning
the maximal digit run. -/
def findObsIdL : List Char → Option String
  | [] => none
  | c :: rest =>
    let cs := c :: rest
    if ("observations/".toList).isPrefixOf cs then
      let ds := (cs.drop 13).takeWhile Char.isDigit
      if ds.isEmpty then findObsIdL rest else some (String.mk ds)
    else findObsIdL rest

/-- Extract the observation id embedded in a URL (the
`match(/observations\/(\d+)/)` capture). -/
def extractObsId (url : String) : Option String :=
  findObsIdL url.toList

/-- Raw taxon data of an API observation payload. -/
structure ObsTaxonData where
  id : Option Int
  name : Option String
  preferred_common_name : Option String
deriving Repr, DecidableEq

/-- Raw observation payload as stored in the observations map (the fields
read by `enrichWithObservations`). -/
structure ObsData where
  taxon : Option ObsTaxonData
  photoUrl : Option String
  userLogin : Option String
  observed_on_string : Option String
  observed_on : Option String
  place_guess : Option String
  quality_grade : Option String
  identifications_count : Option Int
deriving Repr, DecidableEq

/-- JS `String.prototype.replace` with a string pattern: replace the first
occurrence only. -/
def replaceFirstL (pat rep : List Char) : List Char → List Char
  | [] => []
  | c :: rest =>
    if pat.isPrefixOf (c :: rest) then rep ++ (c :: rest).drop pat.length
    else c :: replaceFirstL pat rep rest

/-- `url.replace(pat, rep)` on strings. -/
def replaceFirst (s pat rep : String) : String :=
  String.mk (replaceFirstL pat.toList rep.toList s.toList)

/-- The enrichment block built from one observation payload
(lines 301-314). -/
def mkObservationBlock (obsData : ObsData) : NObservation :=
  { taxon :=
      match obsData.taxon with
      | some t => some
          { id := t.id
            name := t.name
            commonName := jsOrNullStr t.preferred_common_name }
      | none => none
    thumbnail :=
      jsOrNullStr (obsData.photoUrl.map (fun u => replaceFirst u "square" "small"))
    mediumPhoto :=
      jsOrNullStr (obsData.photoUrl.map (fun u => replaceFirst u "square" "medium"))
    observer := jsOrNullStr obsData.userLogin
    observedOn := jsOrNullStr (jsOrOpt obsData.observed_on_string obsData.observed_on)
    placeGuess := jsOrNullStr obsData.place_guess
    qualityGrade := jsOrNullStr obsData.quality_grade
    identificationsCount := jsOrZero obsData.identifications_count }

/-- `enrichWithObservations` on one stored notification (loop body, lines
294-315). -/
def enrichOne (observationsMap : String → Option ObsData) (notif : Notification) :
    Notification :=
  match extractObsId notif.observationUrl with
  | some obsId =>
    match observationsMap obsId with
    | some obsData => { notif with observation := some (mkObservationBlock obsData) }
    | none => notif
  | none => notif

/-- `enrichWithObservations(observationsMap)` (lines 292-318): in-place
update of every stored record; keys are untouched. -/
def enrichWithObservations (st : StoreMap)
    (observationsMap : String → Option ObsData) : StoreMap :=
  st.map (fun p => (p.1, enrichOne observationsMap p.2))

end NotificationStore

/-! ## Fetcher category logic

`ApiV1Fetcher` passes through the category computed in the background script
by `NotificationsAPI.categorizeNotification` (src/lib/notifications-api.js
lines 111-123); `JsonFetcher` and `HtmlFetcher` compute a category inline
(src/lib/notifications.js lines 553-559 and 688-693). -/

/-- `NotificationsAPI.categorizeNotification`: `hasComment` / `hasIdent`
model the truthiness of `notification.comment` / `notification.identification`. -/
def categorizeNotification (notifier_type : Option String)
    (hasComment hasIdent : Bool) : String :=
  let nt := jsOrStr notifier_type ""
  if nt = "Comment" || hasComment then "comment"
  else if nt = "Identification" || hasIdent then "identification"
  else "identification"

/-- Category computation of `JsonFetcher.fetch` (lines 553-559). -/
def jsonCategory (rawNotification : Option String) (notifier_type : Option String)
    (hasComment : Bool) : String :=
  if rawNotification = some "mention" then "mention"
  else if notifier_type = some "Comment" || hasComment then "comment"
  else "identification"

/-- Category computation of `HtmlFetcher.parseHtml` (lines 688-693). -/
def htmlCategory (text : String) : String :=
  if strIncludes text.toLower "mentioned you" then "mention"
  else if strIncludes text.toLower "comment" then "comment"
  else "identification"

/-! ## NotificationController (src/README.md lines 205-307)

`load()` fires the three fetchers and joins them with `Promise.allSettled`;
the three settled outcomes are parameters of the embedded step function.
Calls to the fetchers and to the `onUpdate` / `onError` callbacks are
recorded as an event trace. -/

/-- A settled promise: fulfilled with a value or rejected with an error
message. -/
inductive Settled (α : Type)
  | fulfilled (value : α)
  | rejected (msg : String)
deriving Repr, DecidableEq

/-- Per-fetcher result as consumed by `load` (`notifications` plus the
`total` used for page bookkeeping). -/
structure FetchResult where
  notifications : List Notification
  total : Nat
deriving Repr, DecidableEq

/-- Controller state (the fields of `NotificationController` touched by
`load`). -/
structure CtrlState where
  store : StoreMap
  isLoading : Bool
  error : Option String
  totalPages : Nat
deriving Repr, DecidableEq

/-- Observable events of one `load` call: firing the three fetchers,
invoking `onUpdate`, invoking the auth-error callback, starting `enrich()`. -/
inductive CEvent
  | fetchersFired
  | onUpdate
  | onErrorAuth
  | enrichStarted
deriving Repr, DecidableEq

/-- Return value of `load` (`{ needsAuth }`). -/
structure LoadRet where
  needsAuth : Bool
deriving Repr, DecidableEq

/-- `Math.ceil((total || 0) / perPage) || 1` (README line 235) for a positive
page size. -/
def ceilPages (total perPage : Nat) : Nat :=
  let c := (total + perPage - 1) / perPage
  if c = 0 then 1 else c

/-- `NotificationController.load` (src/README.md lines 216-272), as a step
function from the pre-state and the three settled fetch outcomes to the
post-state, the event trace, and the return value.  The `allSettled` join
itself never rejects, so the `catch` branch is unreachable here. -/
def load (st : CtrlState) (perPage : Nat)
    (apiResult jsonResult htmlResult : Settled FetchResult) :
    CtrlState × List CEvent × LoadRet :=
  if st.isLoading then (st, [], ⟨false⟩)
  else
    let s0 : StoreMap := []
    let s1 :=
      match apiResult with
      | .fulfilled v => NotificationStore.add s0 v.notifications
      | .rejected _ => s0
    let tp :=
      match apiResult with
      | .fulfilled v => ceilPages v.total perPage
      | .rejected _ => st.totalPages
    let s2 :=
      match jsonResult with
      | .fulfilled v =>
        NotificationStore.add s1 (v.notifications.filter (fun n => n.category = "mention"))
      | .rejected _ => s1
    let s3 :=
      match htmlResult with
      | .fulfilled v =>
        NotificationStore.add s2 (v.notifications.filter (fun n => n.category = "mention"))
      | .rejected _ => s2
    match apiResult with
    | .rejected msg =>
      if s3.length = 0 && strIncludes msg "Not authenticated" then
        (⟨s3, false, none, tp⟩, [.fetchersFired, .onErrorAuth], ⟨true⟩)
      else
        (⟨s3, false, none, tp⟩, [.fetchersFired, .onUpdate, .enrichStarted], ⟨false⟩)
    | .fulfilled _ =>
      (⟨s3, false, none, tp⟩, [.fetchersFired, .onUpdate, .enrichStarted], ⟨false⟩)

/-- The two authentication-failure messages thrown by
`NotificationsAPI.apiRequest` (src/lib/notifications-api.js lines 14 and 31):
missing credential, and HTTP 401 with a stored credential. -/
def notAuthenticatedMsg : String :=
  "Not authenticated. Please visit iNaturalist.org while logged in."

/-- The session-expired (HTTP 401) message of `NotificationsAPI.apiRequest`. -/
def sessionExpiredMsg : String :=
  "Session expired. Please visit iNaturalist.org while logged in."

/-- An authentication-class error of the Structured-API fetch: one of the two
messages `apiRequest` throws for authentication failures. -/
def isAuthClassError (msg : String) : Prop :=
  msg = notAuthenticatedMsg ∨ msg = sessionExpiredMsg

/-! ## Concrete records used by witnesses -/

/-- A baseline canonical record for concrete instantiations. -/
def baseNotif : Notification :=
  { id := some "w1", source := "json", category := "mention", viewed := some false,
    createdAt := some 1200000, observationId := "100",
    observationUrl := "https://www.inaturalist.org/observations/100",
    user := ⟨"alice", "Alice", none⟩, body := none, taxon := none,
    observation := none, raw := none }

end INat

namespace INat

open NotificationStore

/-! ## Theorems -/

/-- C5: the deduplication key is the "-"-joined concatenation of
observation id, category, user login (or "unknown" when absent) and the
10-minute bucket `floor(createdAt / 600000)`; records agreeing on those
components in the same bucket get equal keys. -/
theorem claim_C5_dedup_key :
    (∀ (n : Notification) (t : Int), n.createdAt = some t →
      getNotificationKey n =
        n.observationId ++ "-" ++ n.category ++ "-" ++
          (if n.user.login = "" then "unknown" else n.user.login) ++ "-" ++
          toString (Int.fdiv t 600000)) ∧
    (∀ (a b : Notification) (ta tb : Int),
      a.createdAt = some ta → b.createdAt = some tb →
      a.observationId = b.observationId → a.category = b.category →
      a.user.login = b.user.login →
      Int.fdiv ta 600000 = Int.fdiv tb 600000 →
      getNotificationKey a = getNotificationKey b) := by
  constructor
  · intro n t h
    simp [getNotificationKey, h]
  · intro a b ta tb ha hb h1 h2 h3 h4
    simp [getNotificationKey, ha, hb, h1, h2, h3, h4]

/-- Witness for C5 at a concrete record. -/
theorem claim_C5_dedup_key_witness :
    baseNotif.createdAt = some 1200000 ∧
    getNotificationKey baseNotif =
      baseNotif.observationId ++ "-" ++ baseNotif.category ++ "-" ++
        (if baseNotif.user.login = "" then "unknown" else baseNotif.user.login) ++ "-" ++
        toString (Int.fdiv 1200000 600000) :=
  ⟨rfl, claim_C5_dedup_key.1 baseNotif 1200000 rfl⟩

/-- C6: `parseDate` tries the absolute parser first, then the relative
`"<N> <unit> ago"` pattern with the fixed unit sizes (week = 7 days,
month = 30 days, year = 365 days), and otherwise returns null; it is a total
function, so it never throws. -/
theorem claim_C6_parse_date :
    (∀ (tryAbs : String → Option Int) (nowMs : Int) (s : String) (t : Int),
      s ≠ "" → tryAbs s = some t → parseDate tryAbs nowMs (.dStr s) = some t) ∧
    (∀ (tryAbs : String → Option Int) (nowMs : Int) (s : String) (n : Nat) (u : TimeUnit),
      s ≠ "" → tryAbs s = none → findRel s.toList = some (n, u) →
      parseDate tryAbs nowMs (.dStr s) = some (nowMs - (n : Int) * multipliers u)) ∧
    (multipliers .second = 1000 ∧ multipliers .minute = 60 * 1000 ∧
      multipliers .hour = 60 * 60 * 1000 ∧ multipliers .day = 24 * 60 * 60 * 1000 ∧
      multipliers .week = 7 * (24 * 60 * 60 * 1000) ∧
      multipliers .month = 30 * (24 * 60 * 60 * 1000) ∧
      multipliers .year = 365 * (24 * 60 * 60 * 1000)) ∧
    (∀ (tryAbs : String → Option Int) (nowMs : Int) (s : String),
      tryAbs s = none → findRel s.toList = none →
      parseDate tryAbs nowMs (.dStr s) = none) ∧
    (∀ (tryAbs : String → Option Int) (nowMs : Int),
      parseDate tryAbs nowMs .dNone = none) := by
  refine ⟨?_, ?_, by norm_num [multipliers], ?_, ?_⟩
  · intro tryAbs nowMs s t hs ht
    simp [parseDate, hs, ht]
  · intro tryAbs nowMs s n u hs habs hrel
    rw [show s.toList = s.data from rfl] at hrel
    simp [parseDate, hs, habs, hrel]
  · intro tryAbs nowMs s habs hrel
    by_cases hs : s = ""
    · simp [parseDate, hs]
    · rw [show s.toList = s.data from rfl] at hrel
      simp [parseDate, hs, habs, hrel]
  · intro tryAbs nowMs
    rfl

/-- Witness for C6: a concrete relative timestamp with a failing absolute
parser. -/
theorem claim_C6_parse_date_witness :
    ("2 weeks ago" : String) ≠ "" ∧
    (fun (_ : String) => (none : Option Int)) "2 weeks ago" = none ∧
    findRel ("2 weeks ago" : String).toList = some (2, TimeUnit.week) ∧
    parseDate (fun _ => none) 1000000 (.dStr "2 weeks ago") =
      some (1000000 - (2 : Int) * multipliers TimeUnit.week) :=
  ⟨by decide, rfl, by decide,
    claim_C6_parse_date.2.1 (fun _ => none) 1000000 "2 weeks ago" 2 TimeUnit.week
      (by decide) rfl (by decide)⟩

/-- C3: a `load()` call while a previous load is in flight returns
immediately with `{ needsAuth: false }`, leaves the controller state (store
included) untouched, fires no fetcher and invokes no callback. -/
theorem claim_C3_single_flight :
    ∀ (st : CtrlState) (perPage : Nat)
      (apiResult jsonResult htmlResult : Settled FetchResult),
      st.isLoading = true →
      load st perPage apiResult jsonResult htmlResult = (st, [], ⟨false⟩) := by
  intro st perPage apiResult jsonResult htmlResult h
  simp [load, h]

/-- `List.lookup` on a cons cell, with propositional key comparison. -/
theorem lookup_cons_iff (k k' : String) (n : Notification) (st : StoreMap) :
    List.lookup k' ((k, n) :: st) = if k' = k then some n else List.lookup k' st := by
  by_cases h : k' = k
  · subst h; simp [List.lookup_cons]
  · rw [List.lookup_cons, beq_false_of_ne h]; simp [h]

/-- `List.lookup` distributes over append. -/
theorem lookup_append_store (k : String) (st st' : StoreMap) :
    (st ++ st').lookup k =
      match st.lookup k with
      | some v => some v
      | none => st'.lookup k := by
  induction st with
  | nil => rfl
  | cons p rest ih =>
    obtain ⟨k₀, m⟩ := p
    by_cases hk : k = k₀ <;> simp [lookup_cons_iff, hk, ih]

/-- After `setFirst` on a present key, that key maps to the new value. -/
theorem lookup_setFirst_self (k : String) (n : Notification) (st : StoreMap)
    (h : (st.lookup k).isSome) : (setFirst k n st).lookup k = some n := by
  induction st with
  | nil => simp [List.lookup] at h
  | cons p rest ih =>
    obtain ⟨k₀, m⟩ := p
    by_cases hk : k₀ = k
    · subst hk; simp [NotificationStore.setFirst, lookup_cons_iff]
    · have hne : k ≠ k₀ := fun hh => hk hh.symm
      have h' : (rest.lookup k).isSome := by
        simpa [lookup_cons_iff, hne] using h
      simp [NotificationStore.setFirst, hk, lookup_cons_iff, hne, ih h']

/-- `setFirst` leaves every other key unchanged. -/
theorem lookup_setFirst_ne (k k' : String) (n : Notification) (st : StoreMap)
    (h : k' ≠ k) : (setFirst k n st).lookup k' = st.lookup k' := by
  induction st with
  | nil => rfl
  | cons p rest ih =>
    obtain ⟨k₀, m⟩ := p
    by_cases hk : k₀ = k
    · subst hk; simp [NotificationStore.setFirst, lookup_cons_iff, h]
    · simp [NotificationStore.setFirst, hk, lookup_cons_iff, ih]

/-- `addOne` leaves the key of the incoming notification mapped to a record of at
least the incoming source priority. -/
theorem lookup_addOne_self (st : StoreMap) (x : Notification) :
    ∃ m, (addOne st x).lookup (getNotificationKey x) = some m ∧
      sourcePriority x.source ≤ sourcePriority m.source := by
  cases h : st.lookup (getNotificationKey x) with
  | none =>
    refine ⟨x, ?_, le_refl _⟩
    simp [NotificationStore.addOne, h, lookup_append_store, lookup_cons_iff]
  | some m =>
    by_cases hp : sourcePriority x.source > sourcePriority m.source
    · refine ⟨x, ?_, le_refl _⟩
      simp only [NotificationStore.addOne, h, if_pos hp]
      exact lookup_setFirst_self _ _ _ (by simp [h])
    · refine ⟨m, ?_, by omega⟩
      simp [NotificationStore.addOne, h, hp]

/-- `addOne` never lowers the source priority stored under any key. -/
theorem lookup_addOne_mono (st : StoreMap) (x : Notification) (k : String)
    (m : Notification) (h : st.lookup k = some m) :
    ∃ m', (addOne st x).lookup k = some m' ∧
      sourcePriority m.source ≤ sourcePriority m'.source := by
  by_cases hk : getNotificationKey x = k
  · subst hk
    by_cases hp : sourcePriority x.source > sourcePriority m.source
    · refine ⟨x, ?_, by omega⟩
      simp only [NotificationStore.addOne, h, if_pos hp]
      exact lookup_setFirst_self _ _ _ (by simp [h])
    · refine ⟨m, ?_, le_refl _⟩
      simp [NotificationStore.addOne, h, hp]
  · have hk' : k ≠ getNotificationKey x := fun hh => hk hh.symm
    cases h0 : st.lookup (getNotificationKey x) with
    | none =>
      refine ⟨m, ?_, le_refl _⟩
      simp [NotificationStore.addOne, h0, lookup_append_store, h]
    | some m0 =>
      by_cases hp : sourcePriority x.source > sourcePriority m0.source
      · refine ⟨m, ?_, le_refl _⟩
        simp only [NotificationStore.addOne, h0, if_pos hp]
        rw [lookup_setFirst_ne _ _ _ _ hk', h]
      · refine ⟨m, ?_, le_refl _⟩
        simp [NotificationStore.addOne, h0, hp, h]

/-- `add` never lowers the source priority stored under any key. -/
theorem lookup_add_mono (ns : List Notification) (st : StoreMap) (k : String)
    (m : Notification) (h : st.lookup k = some m) :
    ∃ m', (add st ns).lookup k = some m' ∧
      sourcePriority m.source ≤ sourcePriority m'.source := by
  induction ns generalizing st m with
  | nil => exact ⟨m, h, le_refl _⟩
  | cons x rest ih =>
    obtain ⟨m₁, hm₁, hle₁⟩ := lookup_addOne_mono st x k m h
    obtain ⟨m', hm', hle'⟩ := ih (addOne st x) m₁ hm₁
    exact ⟨m', hm', le_trans hle₁ hle'⟩

/-- After `add`, the key of every added notification maps to a record of at
least the source priority of that notification. -/
theorem lookup_add_covers (ns : List Notification) (st : StoreMap)
    (x : Notification) (hx : x ∈ ns) :
    ∃ m, (add st ns).lookup (getNotificationKey x) = some m ∧
      sourcePriority x.source ≤ sourcePriority m.source := by
  induction ns generalizing st with
  | nil => cases hx
  | cons y rest ih =>
    rcases List.mem_cons.mp hx with hxy | hxr
    · subst hxy
      obtain ⟨m₁, hm₁, hle₁⟩ := lookup_addOne_self st x
      obtain ⟨m', hm', hle'⟩ := lookup_add_mono rest (addOne st x) _ m₁ hm₁
      exact ⟨m', hm', le_trans hle₁ hle'⟩
    · exact ih (addOne st y) hxr

/-- An incoming record of equal-or-lower priority than the stored record
under its key is discarded. -/
theorem addOne_of_le (st : StoreMap) (x : Notification) (m : Notification)
    (h : st.lookup (getNotificationKey x) = some m)
    (hle : sourcePriority x.source ≤ sourcePriority m.source) :
    addOne st x = st := by
  simp [NotificationStore.addOne, h, Nat.not_lt.mpr hle]

/-- `add` is the identity when every incoming record is already dominated. -/
theorem add_noop_of_covers (ns : List Notification) (st : StoreMap)
    (h : ∀ x ∈ ns, ∃ m, st.lookup (getNotificationKey x) = some m ∧
      sourcePriority x.source ≤ sourcePriority m.source) :
    add st ns = st := by
  induction ns with
  | nil => rfl
  | cons x rest ih =>
    obtain ⟨m, hm, hle⟩ := h x (List.mem_cons_self x rest)
    have hx : addOne st x = st := addOne_of_le st x m hm hle
    show add (addOne st x) rest = st
    rw [hx]
    exact ih (fun y hy => h y (List.mem_cons_of_mem x hy))

/-- `addOne` keeps a stored record when the incoming record either has a
different key or does not outrank it. -/
theorem lookup_addOne_keep (st : StoreMap) (x : Notification) (k : String)
    (n : Notification) (h : st.lookup k = some n)
    (hle : getNotificationKey x = k →
      sourcePriority x.source ≤ sourcePriority n.source) :
    (addOne st x).lookup k = some n := by
  by_cases hk : getNotificationKey x = k
  · subst hk
    rw [addOne_of_le st x n h (hle rfl)]
    exact h
  · have hk' : k ≠ getNotificationKey x := fun hh => hk hh.symm
    cases h0 : st.lookup (getNotificationKey x) with
    | none => simp [NotificationStore.addOne, h0, lookup_append_store, h]
    | some m0 =>
      by_cases hp : sourcePriority x.source > sourcePriority m0.source
      · simp only [NotificationStore.addOne, h0, if_pos hp]
        rw [lookup_setFirst_ne _ _ _ _ hk']
        exact h
      · simp [NotificationStore.addOne, h0, hp, h]

/-- `add` keeps a stored record that no incoming record with its key
outranks. -/
theorem lookup_add_keep (ns : List Notification) (st : StoreMap) (k : String)
    (n : Notification) (h : st.lookup k = some n)
    (hle : ∀ x ∈ ns, getNotificationKey x = k →
      sourcePriority x.source ≤ sourcePriority n.source) :
    (add st ns).lookup k = some n := by
  induction ns generalizing st with
  | nil => exact h
  | cons x rest ih =>
    show (add (addOne st x) rest).lookup k = some n
    exact ih (addOne st x)
      (lookup_addOne_keep st x k n h (hle x (List.mem_cons_self x rest)))
      (fun y hy hyk => hle y (List.mem_cons_of_mem x hy) hyk)

/-- C8: the merge is idempotent — adding the same record list twice
leaves exactly the contents of adding it once, for every store. -/
theorem claim_C8_idempotent_merge :
    ∀ (st : StoreMap) (ns : List Notification), add (add st ns) ns = add st ns :=
  fun st ns =>
    add_noop_of_covers ns (add st ns) (fun x hx => lookup_add_covers ns st x hx)

/-- `add` of a single record into the empty store. -/
theorem add_nil_single (x : Notification) :
    add [] [x] = [(getNotificationKey x, x)] := by
  simp [NotificationStore.add, NotificationStore.addOne, List.lookup]

/-- Merging two records with equal keys into the empty store keeps the one
of strictly higher priority, and the first inserted on ties. -/
theorem add_pair_eq_key (x y : Notification)
    (hk : getNotificationKey x = getNotificationKey y) :
    add [] [x, y] =
      if sourcePriority x.source < sourcePriority y.source
      then [(getNotificationKey y, y)] else [(getNotificationKey x, x)] := by
  show addOne (addOne [] x) y = _
  have h1 : addOne ([] : StoreMap) x = [(getNotificationKey x, x)] := by
    simp [NotificationStore.addOne, List.lookup]
  rw [h1]
  have h2 : List.lookup (getNotificationKey y)
      [(getNotificationKey x, x)] = some x := by
    simp [lookup_cons_iff, hk]
  by_cases hp : sourcePriority x.source < sourcePriority y.source
  · simp only [NotificationStore.addOne, h2, if_pos hp, hp, if_true]
    simp [NotificationStore.setFirst, hk]
  · simp [NotificationStore.addOne, h2, hp]

/-- C1: for two records with equal dedup keys, `add` (one call or two,
either order) retains exactly one record under that key — the strictly
higher-ranked one, or the first inserted on equal ranks — so the outcome is
insertion-order independent for distinct ranks. -/
theorem claim_C1_rank_merge :
    ∀ a b : Notification, getNotificationKey a = getNotificationKey b →
      (add [] [a, b] = add (add [] [a]) [b]) ∧
      (sourcePriority a.source < sourcePriority b.source →
        add [] [a, b] = [(getNotificationKey b, b)] ∧
        add [] [b, a] = [(getNotificationKey b, b)]) ∧
      (sourcePriority b.source ≤ sourcePriority a.source →
        add [] [a, b] = [(getNotificationKey a, a)]) ∧
      (sourcePriority a.source ≠ sourcePriority b.source →
        add [] [a, b] = add [] [b, a]) := by
  intro a b hk
  have hab := add_pair_eq_key a b hk
  have hba := add_pair_eq_key b a hk.symm
  refine ⟨rfl, ?_, ?_, ?_⟩
  · intro hp
    constructor
    · rw [hab, if_pos hp]
    · rw [hba, if_neg (by omega)]
  · intro hle
    rw [hab, if_neg (by omega)]
  · intro hne
    rcases Nat.lt_or_ge (sourcePriority a.source) (sourcePriority b.source) with hp | hp
    · rw [hab, if_pos hp, hba, if_neg (by omega)]
    · have hp' : sourcePriority b.source < sourcePriority a.source := by omega
      rw [hab, if_neg (by omega), hba, if_pos hp', hk]

/-- Witness for C1: a JSON and an HTML record sharing a key. -/
theorem claim_C1_rank_merge_witness :
    getNotificationKey { baseNotif with source := "html", id := some "w2" } =
      getNotificationKey baseNotif ∧
    (sourcePriority ({ baseNotif with source := "html", id := some "w2" } :
        Notification).source < sourcePriority baseNotif.source →
      add [] [{ baseNotif with source := "html", id := some "w2" }, baseNotif] =
        [(getNotificationKey baseNotif, baseNotif)] ∧
      add [] [baseNotif, { baseNotif with source := "html", id := some "w2" }] =
        [(getNotificationKey baseNotif, baseNotif)]) :=
  ⟨by decide,
    (claim_C1_rank_merge { baseNotif with source := "html", id := some "w2" }
      baseNotif (by decide)).2.1⟩

/-- Witness for C3 at a concrete in-flight state. -/
theorem claim_C3_single_flight_witness :
    ({ store := [(getNotificationKey baseNotif, baseNotif)], isLoading := true,
       error := none, totalPages := 1 } : CtrlState).isLoading = true ∧
    load { store := [(getNotificationKey baseNotif, baseNotif)], isLoading := true,
           error := none, totalPages := 1 } 50
        (.rejected notAuthenticatedMsg) (.fulfilled ⟨[], 0⟩) (.fulfilled ⟨[], 0⟩) =
      ({ store := [(getNotificationKey baseNotif, baseNotif)], isLoading := true,
         error := none, totalPages := 1 }, [], ⟨false⟩) :=
  ⟨rfl, claim_C3_single_flight _ 50 _ _ _ rfl⟩

/-- C4: `resolveCommentIds` rewrites every stored record still carrying
the `pending_comment_` marker whose comment id is mapped (to a truthy id)
to the resolved observation id and the deep-link observation URL; records
whose comment id is unmapped keep their unresolved `observationId`, and no
record (no key) is ever removed. -/
theorem claim_C4_resolve_comment_ids :
    ∀ (st : StoreMap) (mapping : String → Option String),
      ((resolveCommentIds st mapping).map Prod.fst = st.map Prod.fst) ∧
      (∀ k n, (k, n) ∈ st →
        strStartsWith n.observationId "pending_comment_" = true →
        (∀ obsId, mapping (n.observationId.drop 16) = some obsId → obsId ≠ "" →
          (k, { n with
            observationId := obsId,
            observationUrl := "https://www.inaturalist.org/observations/" ++ obsId
              ++ "#activity_comment_" ++ n.observationId.drop 16 }) ∈
            resolveCommentIds st mapping) ∧
        (mapping (n.observationId.drop 16) = none →
          (k, n) ∈ resolveCommentIds st mapping)) := by
  intro st mapping
  constructor
  · simp [NotificationStore.resolveCommentIds]
  · intro k n hmem hpending
    constructor
    · intro obsId hmap hne
      have hm : (k, resolveOne mapping n) ∈ resolveCommentIds st mapping :=
        List.mem_map_of_mem (fun p => (p.1, resolveOne mapping p.2)) hmem
      rwa [show resolveOne mapping n = { n with
          observationId := obsId,
          observationUrl := "https://www.inaturalist.org/observations/" ++ obsId
            ++ "#activity_comment_" ++ n.observationId.drop 16 } from by
        simp [NotificationStore.resolveOne, hpending, hmap, hne]] at hm
    · intro hmap
      have hm : (k, resolveOne mapping n) ∈ resolveCommentIds st mapping :=
        List.mem_map_of_mem (fun p => (p.1, resolveOne mapping p.2)) hmem
      rwa [show resolveOne mapping n = n from by
        simp [NotificationStore.resolveOne, hpending, hmap]] at hm

/-- A concrete pending-comment record for the C4 witness. -/
def pendingNotif : Notification :=
  { baseNotif with
    observationId := "pending_comment_9912"
    observationUrl := "https://www.inaturalist.org/comments/9912" }

/-- Witness for C4: a pending record resolved through a one-entry mapping. -/
theorem claim_C4_resolve_comment_ids_witness :
    (("k1", pendingNotif) ∈ ([("k1", pendingNotif)] : StoreMap)) ∧
    strStartsWith pendingNotif.observationId "pending_comment_" = true ∧
    (fun c => if c = "9912" then some "555" else none)
        (pendingNotif.observationId.drop 16) = some "555" ∧
    ("k1", { pendingNotif with
        observationId := "555",
        observationUrl := "https://www.inaturalist.org/observations/555"
          ++ "#activity_comment_" ++ pendingNotif.observationId.drop 16 }) ∈
      resolveCommentIds [("k1", pendingNotif)]
        (fun c => if c = "9912" then some "555" else none) :=
  ⟨List.mem_singleton.mpr rfl, by decide, by decide,
    ((claim_C4_resolve_comment_ids [("k1", pendingNotif)]
        (fun c => if c = "9912" then some "555" else none)).2 "k1" pendingNotif
      (List.mem_singleton.mpr rfl) (by decide)).1 "555" (by decide) (by decide)⟩

/-- C10: `enrichWithObservations` only (re)writes the `observation`
block: every record whose URL embeds a mapped numeric observation id gets
the block rebuilt from the map entry with all other fields unchanged,
records with no embedded id or an unmapped id are untouched, keys are
preserved, and the pass is idempotent for a fixed map. -/
theorem claim_C10_enrich_frame :
    ∀ (st : StoreMap) (m : String → Option ObsData),
      ((enrichWithObservations st m).map Prod.fst = st.map Prod.fst) ∧
      (∀ k n, (k, n) ∈ st →
        ∃ e, (k, e) ∈ enrichWithObservations st m ∧
          e.id = n.id ∧ e.source = n.source ∧ e.category = n.category ∧
          e.viewed = n.viewed ∧ e.createdAt = n.createdAt ∧
          e.observationId = n.observationId ∧
          e.observationUrl = n.observationUrl ∧ e.user = n.user ∧
          e.body = n.body ∧ e.taxon = n.taxon ∧ e.raw = n.raw ∧
          (∀ obsId d, extractObsId n.observationUrl = some obsId →
            m obsId = some d → e.observation = some (mkObservationBlock d)) ∧
          (extractObsId n.observationUrl = none → e = n) ∧
          (∀ obsId, extractObsId n.observationUrl = some obsId → m obsId = none →
            e = n)) ∧
      (enrichWithObservations (enrichWithObservations st m) m =
        enrichWithObservations st m) := by
  intro st m
  have hone : ∀ n, enrichOne m (enrichOne m n) = enrichOne m n := by
    intro n
    cases h1 : extractObsId n.observationUrl with
    | none => simp [NotificationStore.enrichOne, h1]
    | some obsId =>
      cases h2 : m obsId with
      | none => simp [NotificationStore.enrichOne, h1, h2]
      | some d =>
        have hurl : ({ n with observation := some (mkObservationBlock d)} :
            Notification).observationUrl = n.observationUrl := rfl
        simp [NotificationStore.enrichOne, h1, h2, hurl]
  refine ⟨by simp [NotificationStore.enrichWithObservations], ?_, ?_⟩
  · intro k n hmem
    refine ⟨enrichOne m n,
      List.mem_map_of_mem (fun p => (p.1, enrichOne m p.2)) hmem, ?_⟩
    cases h1 : extractObsId n.observationUrl with
    | none =>
      have he : enrichOne m n = n := by simp [NotificationStore.enrichOne, h1]
      rw [he]
      refine ⟨rfl, rfl, rfl, rfl, rfl, rfl, rfl, rfl, rfl, rfl, rfl, ?_,
        fun _ => rfl, fun _ _ _ => rfl⟩
      intro obsId d h1' _
      exact Option.noConfusion h1'
    | some obsId =>
      cases h2 : m obsId with
      | none =>
        have he : enrichOne m n = n := by
          simp [NotificationStore.enrichOne, h1, h2]
        rw [he]
        refine ⟨rfl, rfl, rfl, rfl, rfl, rfl, rfl, rfl, rfl, rfl, rfl, ?_,
          fun _ => rfl, fun _ _ _ => rfl⟩
        intro obsId' d h1' h2'
        cases Option.some.inj h1'
        rw [h2] at h2'
        exact Option.noConfusion h2'
      | some d =>
        have he : enrichOne m n = { n with observation := some (mkObservationBlock d) } := by
          simp [NotificationStore.enrichOne, h1, h2]
        rw [he]
        refine ⟨rfl, rfl, rfl, rfl, rfl, rfl, rfl, rfl, rfl, rfl, rfl, ?_, ?_, ?_⟩
        · intro obsId' d' h1' h2'
          cases Option.some.inj h1'
          rw [h2] at h2'
          cases Option.some.inj h2'
          rfl
        · intro h1'
          exact Option.noConfusion h1'
        · intro obsId' h1' h2'
          cases Option.some.inj h1'
          rw [h2] at h2'
          exact Option.noConfusion h2'
  · unfold NotificationStore.enrichWithObservations
    rw [List.map_map]
    apply List.map_congr_left
    intro p _
    simp [Function.comp, hone p.2]

/-- A concrete observation payload for the C10 witness. -/
def obsDataW : ObsData :=
  { taxon := some ⟨some 7, some "Quercus alba", some "white oak"⟩,
    photoUrl := some "https://static.inaturalist.org/photos/1/square.jpg",
    userLogin := some "carol", observed_on_string := some "2024-01-02",
    observed_on := none, place_guess := some "TX", quality_grade := some "research",
    identifications_count := some 3 }

/-- Witness for C10: one record with a mapped observation id in its URL. -/
theorem claim_C10_enrich_frame_witness :
    (("k2", baseNotif) ∈ ([("k2", baseNotif)] : StoreMap)) ∧
    (∃ e, ("k2", e) ∈ enrichWithObservations [("k2", baseNotif)]
        (fun i => if i = "100" then some obsDataW else none) ∧
      e.id = baseNotif.id ∧ e.source = baseNotif.source ∧
      e.category = baseNotif.category ∧ e.viewed = baseNotif.viewed ∧
      e.createdAt = baseNotif.createdAt ∧
      e.observationId = baseNotif.observationId ∧
      e.observationUrl = baseNotif.observationUrl ∧ e.user = baseNotif.user ∧
      e.body = baseNotif.body ∧ e.taxon = baseNotif.taxon ∧ e.raw = baseNotif.raw ∧
      (∀ obsId d, extractObsId baseNotif.observationUrl = some obsId →
        (fun i => if i = "100" then some obsDataW else none) obsId = some d →
        e.observation = some (mkObservationBlock d)) ∧
      (extractObsId baseNotif.observationUrl = none → e = baseNotif) ∧
      (∀ obsId, extractObsId baseNotif.observationUrl = some obsId →
        (fun i => if i = "100" then some obsDataW else none) obsId = none →
        e = baseNotif)) :=
  ⟨List.mem_singleton.mpr rfl,
    (claim_C10_enrich_frame [("k2", baseNotif)]
        (fun i => if i = "100" then some obsDataW else none)).2.1 "k2" baseNotif
      (List.mem_singleton.mpr rfl)⟩

/-- C2, counterexample: the session-expired rejection of
`NotificationsAPI.apiRequest` (HTTP 401) is an authentication-class error,
yet a `load` in which the API fetch rejects with it and the Store ends empty
does NOT end in `authRequired` and does not invoke the auth-error callback:
it fires `onUpdate` and returns `needsAuth: false`, because the controller
only matches messages containing "Not authenticated". -/
theorem claim_C2_counterexample :
    isAuthClassError sessionExpiredMsg ∧
    load ⟨[], false, none, 1⟩ 50 (.rejected sessionExpiredMsg)
        (.fulfilled ⟨[], 0⟩) (.fulfilled ⟨[], 0⟩) =
      (⟨[], false, none, 1⟩, [.fetchersFired, .onUpdate, .enrichStarted], ⟨false⟩) :=
  ⟨Or.inr rfl, by decide⟩

/-- C2, amended: when the Structured-API fetch rejects with an error
whose message contains "Not authenticated" (the missing-credential
authentication error; the session-expired authentication error is treated
as generic) and the other two fetchers contribute zero mention records, the
controller ends in `authRequired`: it invokes the auth-error callback, fires no
`onUpdate`, and returns `needsAuth: true`.  With the same rejection but the
JSON fetcher returning a mention, the controller ends in success: the
mention is in the store under its key, `onUpdate` fires and no auth prompt
is raised. -/
theorem claim_C2_auth_distinguishing :
    (∀ (st : CtrlState) (perPage : Nat) (msg : String) (jv hv : FetchResult),
      st.isLoading = false →
      strIncludes msg "Not authenticated" = true →
      jv.notifications.filter (fun n => n.category = "mention") = [] →
      hv.notifications.filter (fun n => n.category = "mention") = [] →
      load st perPage (.rejected msg) (.fulfilled jv) (.fulfilled hv) =
        (⟨[], false, none, st.totalPages⟩, [.fetchersFired, .onErrorAuth], ⟨true⟩)) ∧
    (∀ (st : CtrlState) (perPage : Nat) (msg : String) (m : Notification)
        (jt : Nat) (hv : FetchResult),
      st.isLoading = false →
      strIncludes msg "Not authenticated" = true →
      m.category = "mention" → m.source = "json" →
      (∀ x ∈ hv.notifications, x.source = "html") →
      (load st perPage (.rejected msg) (.fulfilled ⟨[m], jt⟩)
          (.fulfilled hv)).2.2.needsAuth = false ∧
      (load st perPage (.rejected msg) (.fulfilled ⟨[m], jt⟩)
          (.fulfilled hv)).2.1 = [.fetchersFired, .onUpdate, .enrichStarted] ∧
      (load st perPage (.rejected msg) (.fulfilled ⟨[m], jt⟩)
          (.fulfilled hv)).1.store.lookup (getNotificationKey m) = some m) := by
  constructor
  · intro st perPage msg jv hv hload hmsg hj hh
    simp [load, hload, hmsg, hj, hh, NotificationStore.add]
  · intro st perPage msg m jt hv hload hmsg hcat hsrc hhtml
    have hfil : ([m] : List Notification).filter
        (fun n => decide (n.category = "mention")) = [m] := by
      simp [hcat]
    have hs2 : add ([] : StoreMap)
        (([m] : List Notification).filter (fun n => decide (n.category = "mention"))) =
        [(getNotificationKey m, m)] := by
      rw [hfil]
      exact add_nil_single m
    have hs3 : (add [(getNotificationKey m, m)]
        (hv.notifications.filter (fun n => decide (n.category = "mention")))).lookup
          (getNotificationKey m) = some m := by
      apply lookup_add_keep _ _ _ _ (by simp [lookup_cons_iff])
      intro x hx _
      have hxs : x.source = "html" := hhtml x (List.mem_filter.mp hx).1
      rw [hxs, hsrc]
      simp [NotificationStore.sourcePriority]
    have hne : (add [(getNotificationKey m, m)]
        (hv.notifications.filter (fun n => decide (n.category = "mention")))).length
          ≠ 0 := by
      intro h0
      rw [List.length_eq_zero.mp h0] at hs3
      exact Option.noConfusion hs3
    have hload' : load st perPage (.rejected msg) (.fulfilled ⟨[m], jt⟩)
        (.fulfilled hv) =
        (⟨add [(getNotificationKey m, m)]
            (hv.notifications.filter (fun n => decide (n.category = "mention"))),
          false, none, st.totalPages⟩,
          [.fetchersFired, .onUpdate, .enrichStarted], ⟨false⟩) := by
      simp only [load, hload]
      rw [if_neg Bool.false_ne_true]
      simp only [hs2]
      have hcond : (decide (List.length (add [(getNotificationKey m, m)]
          (List.filter (fun n => decide (n.category = "mention")) hv.notifications))
            = 0) && strIncludes msg "Not authenticated") = false := by
        rw [decide_eq_false hne]
        simp
      simp only [hcond]
      rw [if_neg Bool.false_ne_true]
    rw [hload']
    exact ⟨rfl, rfl, hs3⟩

/-- Witness for the amended C2: both branches at concrete inputs. -/
theorem claim_C2_auth_distinguishing_witness :
    (({ store := [], isLoading := false, error := none, totalPages := 1 } :
        CtrlState).isLoading = false ∧
      strIncludes notAuthenticatedMsg "Not authenticated" = true ∧
      load { store := [], isLoading := false, error := none, totalPages := 1 } 50
          (.rejected notAuthenticatedMsg) (.fulfilled ⟨[], 0⟩) (.fulfilled ⟨[], 0⟩) =
        (⟨[], false, none, 1⟩, [.fetchersFired, .onErrorAuth], ⟨true⟩)) ∧
    ((load { store := [], isLoading := false, error := none, totalPages := 1 } 50
          (.rejected notAuthenticatedMsg) (.fulfilled ⟨[baseNotif], 0⟩)
          (.fulfilled ⟨[], 0⟩)).2.2.needsAuth = false ∧
      (load { store := [], isLoading := false, error := none, totalPages := 1 } 50
          (.rejected notAuthenticatedMsg) (.fulfilled ⟨[baseNotif], 0⟩)
          (.fulfilled ⟨[], 0⟩)).2.1 = [.fetchersFired, .onUpdate, .enrichStarted] ∧
      (load { store := [], isLoading := false, error := none, totalPages := 1 } 50
          (.rejected notAuthenticatedMsg) (.fulfilled ⟨[baseNotif], 0⟩)
          (.fulfilled ⟨[], 0⟩)).1.store.lookup (getNotificationKey baseNotif) =
        some baseNotif) :=
  ⟨⟨rfl, by decide,
    claim_C2_auth_distinguishing.1 ⟨[], false, none, 1⟩ 50 notAuthenticatedMsg
      ⟨[], 0⟩ ⟨[], 0⟩ rfl (by decide) rfl rfl⟩,
    claim_C2_auth_distinguishing.2
      { store := [], isLoading := false, error := none, totalPages := 1 } 50
      notAuthenticatedMsg baseNotif 0 ⟨[], 0⟩ rfl (by decide) rfl rfl
      (fun x hx => absurd hx (List.not_mem_nil x))⟩

/-- A `createNotification` argument carrying an unrecognized non-empty
category. -/
def unrecognizedCatData : NData :=
  { id := none
    source := some "json"
    category := some "foo"
    viewed := none
    createdAt := .dNone
    observationId := none
    observationUrl := none
    user := none
    body := none
    taxon := none
    observation := none
    raw := none }

/-- A `createNotification` argument with a missing category. -/
def missingCatData : NData :=
  { unrecognizedCatData with category := none }

/-- C9, counterexample: `createNotification` passes an unrecognized
non-empty `category` string through unchanged (the `identification`
default only replaces missing or empty values), so a record can
carry a category outside the three-value enum. -/
theorem claim_C9_counterexample :
    (createNotification (fun _ => none) 0 unrecognizedCatData).category = "foo" ∧
    ¬((createNotification (fun _ => none) 0 unrecognizedCatData).category = "mention" ∨
      (createNotification (fun _ => none) 0 unrecognizedCatData).category = "comment" ∨
      (createNotification (fun _ => none) 0 unrecognizedCatData).category =
        "identification") := by
  constructor
  · rfl
  · intro h
    rcases h with h | h | h <;> exact absurd h (by decide)

/-- C9, amended: a missing or empty `category` defaults to
`identification`, while a non-empty category string is passed through
unchanged by `createNotification`; each of the three fetchers only ever
supplies one of the enum values (the background categorization feeding
`ApiV1Fetcher` yields `comment` or `identification`; the category
computations of `JsonFetcher` and `HtmlFetcher` are drawn from the closed
three-value set). -/
theorem claim_C9_category_enum :
    (∀ (tryAbs : String → Option Int) (nowMs : Int) (d : NData),
      d.category = none ∨ d.category = some "" →
      (createNotification tryAbs nowMs d).category = "identification") ∧
    (∀ (tryAbs : String → Option Int) (nowMs : Int) (d : NData) (c : String),
      d.category = some c → c ≠ "" →
      (createNotification tryAbs nowMs d).category = c) ∧
    (∀ (nt : Option String) (hc hi : Bool),
      categorizeNotification nt hc hi = "comment" ∨
      categorizeNotification nt hc hi = "identification") ∧
    (∀ (rn nt : Option String) (hc : Bool),
      jsonCategory rn nt hc = "mention" ∨ jsonCategory rn nt hc = "comment" ∨
      jsonCategory rn nt hc = "identification") ∧
    (∀ text : String,
      htmlCategory text = "mention" ∨ htmlCategory text = "comment" ∨
      htmlCategory text = "identification") := by
  refine ⟨?_, ?_, ?_, ?_, ?_⟩
  · intro tryAbs nowMs d hd
    rcases hd with hd | hd <;> simp [createNotification, jsOrStr, hd]
  · intro tryAbs nowMs d c hd hc
    simp [createNotification, jsOrStr, hd, hc]
  · intro nt hc hi
    cases h1 : (decide (jsOrStr nt "" = "Comment") || hc) with
    | true => exact Or.inl (by simp [categorizeNotification, h1])
    | false => exact Or.inr (by simp [categorizeNotification, h1, ite_self])
  · intro rn nt hc
    by_cases h1 : rn = some "mention"
    · exact Or.inl (by simp [jsonCategory, h1])
    · cases h2 : (decide (nt = some "Comment") || hc) with
      | true => exact Or.inr (Or.inl (by simp [jsonCategory, h1, h2]))
      | false => exact Or.inr (Or.inr (by simp [jsonCategory, h1, h2]))
  · intro text
    cases h1 : strIncludes text.toLower "mentioned you" with
    | true => exact Or.inl (by simp [htmlCategory, h1])
    | false =>
      cases h2 : strIncludes text.toLower "comment" with
      | true => exact Or.inr (Or.inl (by simp [htmlCategory, h1, h2]))
      | false => exact Or.inr (Or.inr (by simp [htmlCategory, h1, h2]))

instance : IsTotal Notification sortLe :=
  ⟨by
    intro a b
    cases ha : a.createdAt <;> cases hb : b.createdAt
    all_goals simp [sortLe, jsCmpNotif, ha, hb]
    all_goals omega⟩

instance : IsTrans Notification sortLe :=
  ⟨by
    intro a b c hab hbc
    cases ha : a.createdAt <;> cases hb : b.createdAt <;> cases hc : c.createdAt
    all_goals simp [sortLe, jsCmpNotif, ha, hb, hc] at hab hbc ⊢
    all_goals omega⟩

/-- `orderedInsert` over the `getAll` comparator: a null-timestamp record is
inserted after every existing null-timestamp record, so the null filter
gains it at the end of the walked prefix; a timestamped record never changes
the null filter. -/
theorem filter_isNone_orderedInsert (x : Notification) (l : List Notification) :
    (l.orderedInsert sortLe x).filter (fun n => n.createdAt.isNone) =
      if x.createdAt.isNone then
        x :: l.filter (fun n => n.createdAt.isNone)
      else l.filter (fun n => n.createdAt.isNone) := by
  induction l with
  | nil =>
    cases hx : x.createdAt.isNone <;> simp [List.orderedInsert, List.filter, hx]
  | cons b bs ih =>
    by_cases hxb : sortLe x b
    · rw [List.orderedInsert, if_pos hxb]
      cases hx : x.createdAt.isNone <;> simp [List.filter_cons, hx]
    · rw [List.orderedInsert, if_neg hxb]
      cases hx : x.createdAt.isNone with
      | true =>
        have hb : b.createdAt.isNone = false := by
          cases hcx : x.createdAt with
          | none =>
            cases hcb : b.createdAt with
            | none =>
              exact absurd (show sortLe x b by
                simp [sortLe, jsCmpNotif, hcx, hcb]) hxb
            | some v => simp [hcb]
          | some v => rw [hcx] at hx; simp at hx
        simp [List.filter_cons, hb, ih, hx]
      | false =>
        simp [List.filter_cons, ih, hx]

/-- The stable sort of `getAll` keeps the null-timestamp records in their
insertion order. -/
theorem filter_isNone_insertionSort (l : List Notification) :
    (l.insertionSort sortLe).filter (fun n => n.createdAt.isNone) =
      l.filter (fun n => n.createdAt.isNone) := by
  induction l with
  | nil => rfl
  | cons x xs ih =>
    rw [List.insertionSort, filter_isNone_orderedInsert]
    cases hx : x.createdAt.isNone <;> simp [List.filter_cons, hx, ih]

/-- C7: `getAll` returns a permutation of the stored records in which
records are ordered by `createdAt` descending, every null-timestamp record
comes after all timestamped records, and the null-timestamp records keep
their insertion order; the comparator is total, so it never fails. -/
theorem claim_C7_get_all_sorted :
    ∀ st : StoreMap,
      (getAll st).Perm (st.map Prod.snd) ∧
      (∀ i j (hi : i < (getAll st).length) (hj : j < (getAll st).length),
        i < j →
        (∀ x y, ((getAll st).get ⟨i, hi⟩).createdAt = some x →
          ((getAll st).get ⟨j, hj⟩).createdAt = some y → y ≤ x) ∧
        (((getAll st).get ⟨i, hi⟩).createdAt = none →
          ((getAll st).get ⟨j, hj⟩).createdAt = none)) ∧
      ((getAll st).filter (fun n => n.createdAt.isNone) =
        (st.map Prod.snd).filter (fun n => n.createdAt.isNone)) := by
  intro st
  refine ⟨List.perm_insertionSort sortLe (st.map Prod.snd), ?_,
    filter_isNone_insertionSort (st.map Prod.snd)⟩
  intro i j hi hj hij
  have hsorted : (getAll st).Sorted sortLe :=
    List.sorted_insertionSort sortLe (st.map Prod.snd)
  have hrel : sortLe ((getAll st).get ⟨i, hi⟩) ((getAll st).get ⟨j, hj⟩) :=
    hsorted.rel_get_of_lt (show (⟨i, hi⟩ : Fin (getAll st).length) < ⟨j, hj⟩ from hij)
  constructor
  · intro x y hx hy
    simp only [List.get_eq_getElem] at hx hy hrel
    simp [sortLe, jsCmpNotif, hx, hy] at hrel
    omega
  · intro hx
    cases hy : ((getAll st).get ⟨j, hj⟩).createdAt with
    | none => rfl
    | some y =>
      refine absurd hrel ?_
      simp only [List.get_eq_getElem] at hx hy ⊢
      simp [sortLe, jsCmpNotif, hx, hy]

/-- Concrete store for the C7 witness: two timestamped and two untimestamped
records, inserted interleaved. -/
def storeW : StoreMap :=
  [("a", { baseNotif with id := some "a", createdAt := some 5 }),
   ("b", { baseNotif with id := some "b", createdAt := none }),
   ("c", { baseNotif with id := some "c", createdAt := some 9 }),
   ("d", { baseNotif with id := some "d", createdAt := none })]

/-- Witness for C7: the concrete sort puts the newest record first and the
null-timestamp records last in insertion order. -/
theorem claim_C7_get_all_sorted_witness :
    getAll storeW =
      [{ baseNotif with id := some "c", createdAt := some 9 },
       { baseNotif with id := some "a", createdAt := some 5 },
       { baseNotif with id := some "b", createdAt := none },
       { baseNotif with id := some "d", createdAt := none }] ∧
    ((getAll storeW).Perm (storeW.map Prod.snd) ∧
      (∀ i j (hi : i < (getAll storeW).length) (hj : j < (getAll storeW).length),
        i < j →
        (∀ x y, ((getAll storeW).get ⟨i, hi⟩).createdAt = some x →
          ((getAll storeW).get ⟨j, hj⟩).createdAt = some y → y ≤ x) ∧
        (((getAll storeW).get ⟨i, hi⟩).createdAt = none →
          ((getAll storeW).get ⟨j, hj⟩).createdAt = none)) ∧
      ((getAll storeW).filter (fun n => n.createdAt.isNone) =
        (storeW.map Prod.snd).filter (fun n => n.createdAt.isNone))) :=
  ⟨by decide, claim_C7_get_all_sorted storeW⟩

/-- Witness for the amended C9: a missing category defaults to
`identification`. -/
theorem claim_C9_category_enum_witness :
    (missingCatData.category = none ∨ missingCatData.category = some "") ∧
    (createNotification (fun _ => none) 0 missingCatData).category =
      "identification" :=
  ⟨Or.inl rfl,
    claim_C9_category_enum.1 (fun _ => none) 0 missingCatData (Or.inl rfl)⟩

end INat
